import Mathlib

/-!
Verification of the routing and resilient-invocation subsystem.

The development shallowly embeds the Python source files
`backend/agents/base.py`, `backend/agents/registry.py`,
`backend/agents/fallback_llm.py` and `backend/agents/orchestrator.py`:
pure functions become Lean functions, the mutable fallback state of a
`FallbackLLM` instance becomes explicit state passing, Python floats become
exact rationals, raised exceptions become `Except` values, and the two
remote model backends become oracles mapping a call index to a result.
-/

/-- Python's `str.lower`, applied to the string's character list. -/
def lower (s : String) : String := String.mk (s.data.map Char.toLower)

/-- Python's substring test `a in b`. -/
def substrOf (a b : String) : Bool := decide (a.data <:+: b.data)

/-- `AgentCapability` (`backend/agents/base.py`): a named skill area with
keyword triggers and a confidence threshold (default 0.7). -/
structure AgentCapability where
  name : String
  description : String
  keywords : List String
  confidence_threshold : ℚ := 7/10

/-- The fields of `AgentConfig` (`backend/agents/base.py`) that the routing
logic reads: the responder's unique name and its ordered capability list. -/
structure AgentConfig where
  name : String
  description : String
  capabilities : List AgentCapability

/-- One iteration of the loop in `BaseAgent.can_handle`
(`backend/agents/base.py`, lines 86-92): count the capability's keywords
occurring case-insensitively in the message; a capability with at least one
match contributes `min (matches * 0.3) 1` to the running total. -/
def capability_step (message_lower : String) (total_score : ℚ)
    (capability : AgentCapability) : ℚ :=
  let keyword_matches :=
    capability.keywords.countP (fun keyword => substrOf (lower keyword) message_lower)
  if keyword_matches > 0 then
    total_score + min ((keyword_matches : ℚ) * (3/10)) 1
  else
    total_score

/-- `BaseAgent.can_handle` (`backend/agents/base.py`, lines 81-94): lower-case
the message, sum the capability contributions, clamp the total to 1. -/
def can_handle (config : AgentConfig) (message : String) : ℚ :=
  let message_lower := lower message
  let total_score := config.capabilities.foldl (capability_step message_lower) 0
  min total_score 1

/-- A registered responder; only its `config` is read by the registry. -/
structure BaseAgent where
  config : AgentConfig

/-- `AgentRegistry` (`backend/agents/registry.py`): the registered responders
in insertion order, plus the optional designated default responder. -/
structure AgentRegistry where
  agents : List BaseAgent
  fallback_agent : Option BaseAgent

/-- One iteration of the loop in `AgentRegistry.find_best_agent`
(`backend/agents/registry.py`, lines 153-158): keep the strict maximum. -/
def find_best_step (message : String) (acc : Option BaseAgent × ℚ)
    (agent : BaseAgent) : Option BaseAgent × ℚ :=
  let score := can_handle agent.config message
  if score > acc.2 then (some agent, score) else acc

/-- `AgentRegistry.find_best_agent` (`backend/agents/registry.py`,
lines 148-165): scan all responders keeping the strict best score (starting
from `none, 0.0`); if the best score is below 0.3 and a default responder
exists, return it with fixed confidence 0.5; otherwise return the best match
(or the default when no responder ever beat 0). -/
def find_best_agent (reg : AgentRegistry) (message : String) :
    Option BaseAgent × ℚ :=
  let best := reg.agents.foldl (find_best_step message) (none, 0)
  if best.2 < 3/10 ∧ reg.fallback_agent.isSome = true then
    (reg.fallback_agent, 1/2)
  else
    (best.1 <|> reg.fallback_agent, best.2)

lemma capability_step_le (message_lower : String) (total_score : ℚ)
    (capability : AgentCapability) :
    total_score ≤ capability_step message_lower total_score capability := by
  unfold capability_step
  set k := capability.keywords.countP
      (fun keyword => substrOf (lower keyword) message_lower) with hk
  by_cases h : k > 0
  · simp only [h, if_true]
    have h1 : (0:ℚ) ≤ (k : ℚ) * (3/10) := by positivity
    have h2 : (0:ℚ) ≤ min ((k : ℚ) * (3/10)) 1 := le_min h1 (by norm_num)
    linarith
  · simp [h]

lemma foldl_capability_le (message_lower : String)
    (caps : List AgentCapability) (total_score : ℚ) :
    total_score ≤ caps.foldl (capability_step message_lower) total_score := by
  induction caps generalizing total_score with
  | nil => simp
  | cons c cs ih =>
      calc total_score ≤ capability_step message_lower total_score c :=
            capability_step_le message_lower total_score c
        _ ≤ cs.foldl (capability_step message_lower)
              (capability_step message_lower total_score c) := ih _

lemma foldl_capability_zero (message_lower : String)
    (caps : List AgentCapability) (total_score : ℚ)
    (h : ∀ cap ∈ caps, ∀ keyword ∈ cap.keywords,
        substrOf (lower keyword) message_lower = false) :
    caps.foldl (capability_step message_lower) total_score = total_score := by
  induction caps generalizing total_score with
  | nil => simp
  | cons c cs ih =>
      have hc : c.keywords.countP
          (fun keyword => substrOf (lower keyword) message_lower) = 0 := by
        refine List.countP_eq_zero.mpr ?_
        intro kw hkw
        simp [h c (by simp) kw hkw]
      have hstep : capability_step message_lower total_score c = total_score := by
        unfold capability_step
        simp [hc]
      rw [List.foldl_cons, hstep]
      exact ih total_score (fun cap hcap => h cap (by simp [hcap]))

/-- C3: for every message and every capability list, the `can_handle` score
lies in `[0, 1]`; and when no keyword of any capability occurs
case-insensitively in the message, the score is exactly `0` (the function is
total, so no error is possible). -/
theorem can_handle_score_bounds (config : AgentConfig) (message : String) :
    0 ≤ can_handle config message ∧ can_handle config message ≤ 1 ∧
    ((∀ cap ∈ config.capabilities, ∀ keyword ∈ cap.keywords,
        substrOf (lower keyword) (lower message) = false) →
      can_handle config message = 0) := by
  refine ⟨?_, ?_, ?_⟩
  · unfold can_handle
    exact le_min (foldl_capability_le _ _ 0) (by norm_num)
  · unfold can_handle
    exact min_le_right _ _
  · intro h
    have hz := foldl_capability_zero (lower message) config.capabilities 0 h
    show min (config.capabilities.foldl (capability_step (lower message)) 0) 1 = 0
    rw [hz]
    norm_num

/-- Witness for C3 at a concrete input: the message "hi" against a coding
capability whose keywords are `bug`, `function`, `debug` scores exactly 0. -/
theorem can_handle_score_bounds_witness :
    can_handle ⟨"coding", "c", [⟨"code", "d", ["bug", "function", "debug"], 7/10⟩]⟩
        "hi" = 0 :=
  (can_handle_score_bounds
      ⟨"coding", "c", [⟨"code", "d", ["bug", "function", "debug"], 7/10⟩]⟩
      "hi").2.2 (by decide)

lemma foldl_best_lt (message : String) (c : ℚ) (agents : List BaseAgent)
    (acc : Option BaseAgent × ℚ) (hacc : acc.2 < c)
    (h : ∀ a ∈ agents, can_handle a.config message < c) :
    (agents.foldl (find_best_step message) acc).2 < c := by
  induction agents generalizing acc with
  | nil => simpa using hacc
  | cons a as ih =>
      rw [List.foldl_cons]
      refine ih _ ?_ (fun x hx => h x (by simp [hx]))
      unfold find_best_step
      by_cases hgt : can_handle a.config message > acc.2
      · simpa [hgt] using h a (by simp)
      · simpa [hgt] using hacc

/-- C2: whenever every registered responder scores below 0.3 on the message
and a default responder is set, `find_best_agent` returns exactly the pair
`(default responder, 0.5)`, whatever the default responder's own score. -/
theorem find_best_agent_default_override (reg : AgentRegistry)
    (message : String) (d : BaseAgent) (hd : reg.fallback_agent = some d)
    (hlow : ∀ a ∈ reg.agents, can_handle a.config message < 3/10) :
    find_best_agent reg message = (some d, 1/2) := by
  unfold find_best_agent
  have hbest : (reg.agents.foldl (find_best_step message) (none, 0)).2 < 3/10 :=
    foldl_best_lt message (3/10) reg.agents (none, 0) (by norm_num) hlow
  rw [if_pos ⟨hbest, by rw [hd]; rfl⟩, hd]

/-- Witness for C2 at a concrete input: a registry holding one coding
responder (keywords `bug`, `function`, `debug`) and a general default
responder (keywords `hello`, `help`); on the message "hm" the top true score
is 0, yet the default is returned with confidence 0.5. -/
theorem find_best_agent_default_override_witness :
    find_best_agent
      ⟨[⟨⟨"coding", "c", [⟨"code", "d", ["bug", "function", "debug"], 7/10⟩]⟩⟩],
        some ⟨⟨"general", "g", [⟨"chat", "d", ["hello", "help"], 7/10⟩]⟩⟩⟩
      "hm"
    = (some ⟨⟨"general", "g", [⟨"chat", "d", ["hello", "help"], 7/10⟩]⟩⟩, 1/2) :=
  find_best_agent_default_override _ "hm"
    ⟨⟨"general", "g", [⟨"chat", "d", ["hello", "help"], 7/10⟩]⟩⟩ rfl
    (by
      intro a ha
      rcases List.mem_singleton.mp ha with rfl
      have h1 : (["bug", "function", "debug"] : List String).countP
          (fun keyword => substrOf (lower keyword) (lower "hm")) = 0 := by decide
      norm_num [can_handle, capability_step, h1, min_def])

/-- The credit/quota keyword list from `FallbackLLM.agenerate`
(`backend/agents/fallback_llm.py`, lines 74-77). -/
def credit_keywords : List String :=
  ["insufficient", "quota", "credit", "payment", "billing",
   "limit", "exceeded", "402", "payment required", "balance"]

/-- The rate-limit keyword list from `FallbackLLM.agenerate`
(`backend/agents/fallback_llm.py`, lines 80-82). -/
def rate_limit_keywords : List String :=
  ["rate limit", "too many requests", "429", "throttle"]

/-- `is_credit_error` (`backend/agents/fallback_llm.py`, lines 74-77):
the lowered error message contains some credit keyword. -/
def is_credit_error (error_msg : String) : Bool :=
  credit_keywords.any (fun keyword => substrOf keyword (lower error_msg))

/-- `is_rate_limit` (`backend/agents/fallback_llm.py`, lines 80-82):
the lowered error message contains some rate-limit keyword. -/
def is_rate_limit (error_msg : String) : Bool :=
  rate_limit_keywords.any (fun keyword => substrOf keyword (lower error_msg))

/-- The three-way error taxonomy of the spec (credit, rate-limit, other),
with the credit test applied first exactly as `agenerate` consults the two
boolean tests. -/
inductive ErrorClass where
  | credit
  | rateLimit
  | other
deriving DecidableEq

/-- Classify an error message into the three-way taxonomy, credit first. -/
def classify_error (error_msg : String) : ErrorClass :=
  if is_credit_error error_msg = true then .credit
  else if is_rate_limit error_msg = true then .rateLimit
  else .other

/-- The mutable state and fixed descriptors of one `FallbackLLM` instance
(`backend/agents/fallback_llm.py`, lines 17-33).  `has_fallback_llm` records
whether `self.fallback_llm` is non-`None`; the two model-name fields record
the primary and fallback configuration descriptors. -/
structure FallbackLLM where
  agent_name : String
  agent_type : String
  primary_model_name : String
  fallback_model_name : String
  has_fallback_llm : Bool
  using_fallback : Bool
  fallback_reason : Option String
deriving DecidableEq

/-- `FallbackLLM.__init__` (`backend/agents/fallback_llm.py`, lines 17-33):
the fallback LLM is created only when the fallback subsystem is enabled;
the instance starts with `using_fallback = False` and no reason. -/
def FallbackLLM.init (agent_name agent_type primary_model fallback_model : String)
    (fallback_enabled : Bool) : FallbackLLM :=
  { agent_name := agent_name
    agent_type := agent_type
    primary_model_name := primary_model
    fallback_model_name := fallback_model
    has_fallback_llm := fallback_enabled
    using_fallback := false
    fallback_reason := none }

/-- The two remote model backends, as oracles from a call index (how many
times that backend has been called so far in this invocation) to the call's
outcome: a reply or a raised error message. -/
structure ModelWorld where
  primary_llm : Nat → Except String String
  fallback_llm : Nat → Except String String

/-- The observable outcome of one `agenerate` invocation: the returned reply
or raised error, the instance's post-state, the backoff sleeps performed in
order, and how many primary and fallback backend calls were made. -/
structure GenOutcome where
  result : Except String String
  self : FallbackLLM
  sleeps : List ℚ
  primary_calls : Nat
  fallback_calls : Nat

/-- The retry loop of `FallbackLLM.agenerate`
(`backend/agents/fallback_llm.py`, lines 56-114), one recursive step per
iteration of `for attempt in range(max_retries + 1)`.  `fuel` counts the
iterations remaining (initially `max_retries + 1`); `cp` and `cf` count the
primary and fallback backend calls made so far; `sleeps` accumulates the
backoff delays.  Exhausting the loop raises the final "all attempts failed"
error (line 114). -/
def agenerateLoop (world : ModelWorld) (max_retries : Nat) (retry_delay : ℚ)
    (l : FallbackLLM) (attempt fuel cp cf : Nat) (sleeps : List ℚ) : GenOutcome :=
  match fuel with
  | 0 =>
      { result := .error ("All attempts failed for " ++ l.agent_name)
        self := l, sleeps := sleeps, primary_calls := cp, fallback_calls := cf }
  | fuel' + 1 =>
    let callRes := if l.using_fallback = true then world.fallback_llm cf
                   else world.primary_llm cp
    let cp' := if l.using_fallback = true then cp else cp + 1
    let cf' := if l.using_fallback = true then cf + 1 else cf
    match callRes with
    | .ok response =>
        { result := .ok response
          self := l, sleeps := sleeps, primary_calls := cp', fallback_calls := cf' }
    | .error e =>
      if is_credit_error e = true ∨ max_retries ≤ attempt then
        if l.using_fallback = false ∧ l.has_fallback_llm = true then
          let l' := { l with
            using_fallback := true
            fallback_reason := some (if is_credit_error e = true
              then "credit_exhausted" else "max_retries_exceeded") }
          match world.fallback_llm cf' with
          | .ok r =>
              { result := .ok r
                self := l', sleeps := sleeps
                primary_calls := cp', fallback_calls := cf' + 1 }
          | .error fallback_error =>
              { result := .error fallback_error
                self := l', sleeps := sleeps
                primary_calls := cp', fallback_calls := cf' + 1 }
        else
          { result := .error e
            self := l, sleeps := sleeps, primary_calls := cp', fallback_calls := cf' }
      else
        let sleeps' :=
          if is_rate_limit e = true ∧ attempt < max_retries then
            sleeps ++ [retry_delay * 2 ^ attempt]
          else if attempt < max_retries then
            sleeps ++ [retry_delay]
          else sleeps
        agenerateLoop world max_retries retry_delay l (attempt + 1) fuel' cp' cf' sleeps'

/-- `FallbackLLM.agenerate` (`backend/agents/fallback_llm.py`, lines 47-114):
when the fallback subsystem is globally disabled, a single direct primary
call whose outcome (reply or error) is returned unmodified; otherwise the
retry loop starting at attempt 0 with `max_retries + 1` iterations. -/
def agenerate (fallback_enabled : Bool) (max_retries : Nat) (retry_delay : ℚ)
    (world : ModelWorld) (l : FallbackLLM) : GenOutcome :=
  if fallback_enabled = false then
    match world.primary_llm 0 with
    | .ok response =>
        { result := .ok response
          self := l, sleeps := [], primary_calls := 1, fallback_calls := 0 }
    | .error e =>
        { result := .error e
          self := l, sleeps := [], primary_calls := 1, fallback_calls := 0 }
  else
    agenerateLoop world max_retries retry_delay l 0 (max_retries + 1) 0 0 []

/-- `FallbackLLM.reset_fallback` (`backend/agents/fallback_llm.py`,
lines 128-133): revert to the primary model and clear the reason, only when
currently using the fallback. -/
def FallbackLLM.reset_fallback (l : FallbackLLM) : FallbackLLM :=
  if l.using_fallback = true then
    { l with using_fallback := false, fallback_reason := none }
  else l

/-- `FallbackLLM.force_fallback` (`backend/agents/fallback_llm.py`,
lines 135-140): switch to the fallback model with the given reason, only
when a fallback LLM exists and it is not already in use. -/
def FallbackLLM.force_fallback (l : FallbackLLM) (reason : String) : FallbackLLM :=
  if l.has_fallback_llm = true ∧ l.using_fallback = false then
    { l with using_fallback := true, fallback_reason := some reason }
  else l

/-- `FallbackLLM.get_current_model` (`backend/agents/fallback_llm.py`,
lines 142-147). -/
def FallbackLLM.get_current_model (l : FallbackLLM) : String :=
  if l.using_fallback = true then l.fallback_model_name else l.primary_model_name

/-- C7: with the fallback subsystem globally disabled, `agenerate` is a
single direct primary call: its reply or error is returned unmodified, no
backoff sleep happens, no second call is made, and the fallback state is
untouched. -/
theorem agenerate_disabled_direct (max_retries : Nat) (retry_delay : ℚ)
    (world : ModelWorld) (l : FallbackLLM) :
    (agenerate false max_retries retry_delay world l).result = world.primary_llm 0 ∧
    (agenerate false max_retries retry_delay world l).self = l ∧
    (agenerate false max_retries retry_delay world l).sleeps = [] ∧
    (agenerate false max_retries retry_delay world l).primary_calls = 1 ∧
    (agenerate false max_retries retry_delay world l).fallback_calls = 0 := by
  unfold agenerate
  cases h : world.primary_llm 0 <;> simp [h]

lemma agenerateLoop_keeps_fallback (world : ModelWorld) (max_retries : Nat)
    (retry_delay : ℚ) (l : FallbackLLM) (attempt fuel cp cf : Nat)
    (sleeps : List ℚ) (h : l.using_fallback = true) :
    (agenerateLoop world max_retries retry_delay l attempt fuel cp cf
      sleeps).self.using_fallback = true := by
  induction fuel generalizing attempt cp cf sleeps with
  | zero => simpa [agenerateLoop] using h
  | succ n ih =>
      simp only [agenerateLoop, h]
      cases hc : world.fallback_llm cf with
      | ok r => simp [hc, h]
      | error e =>
          by_cases hg : is_credit_error e = true ∨ max_retries ≤ attempt
          · simp [hc, hg, h]
          · simp [hc, hg]
            exact ih _ _ _ _

/-- C4: an invocation never reverts `FALLBACK` to `PRIMARY` (in particular a
successful call made while `using_fallback` is true leaves it true); only
`reset_fallback` reverts, setting `using_fallback` to false and clearing
`fallback_reason`, and it is an idempotent no-op when already on primary. -/
theorem no_auto_revert_to_primary (fallback_enabled : Bool) (max_retries : Nat)
    (retry_delay : ℚ) (world : ModelWorld) (l : FallbackLLM) :
    (l.using_fallback = true →
      (agenerate fallback_enabled max_retries retry_delay world
        l).self.using_fallback = true) ∧
    (l.using_fallback = true →
      l.reset_fallback =
        { l with using_fallback := false, fallback_reason := none }) ∧
    (l.using_fallback = false → l.reset_fallback = l) ∧
    l.reset_fallback.reset_fallback = l.reset_fallback ∧
    l.reset_fallback.using_fallback = false := by
  refine ⟨?_, ?_, ?_, ?_, ?_⟩
  · intro h
    unfold agenerate
    by_cases hf : fallback_enabled = false
    · cases hp : world.primary_llm 0 <;> simp [hf, hp, h]
    · simp only [hf, if_false]
      exact agenerateLoop_keeps_fallback _ _ _ _ _ _ _ _ _ h
  · intro h
    simp [FallbackLLM.reset_fallback, h]
  · intro h
    simp [FallbackLLM.reset_fallback, h]
  · by_cases h : l.using_fallback = true <;>
      simp [FallbackLLM.reset_fallback, h]
  · by_cases h : l.using_fallback = true <;>
      simp [FallbackLLM.reset_fallback, h]

/-- Witness for C4 at a concrete input: an instance already in `FALLBACK`
keeps `using_fallback = true` through a successful invocation, and
`reset_fallback` brings it back to a cleared primary state. -/
theorem no_auto_revert_to_primary_witness :
    (agenerate true 2 1 ⟨fun _ => .ok "p", fun _ => .ok "f"⟩
      ⟨"a", "personas", "m1", "m2", true, true, some "manual"⟩).self.using_fallback
        = true ∧
    FallbackLLM.reset_fallback ⟨"a", "personas", "m1", "m2", true, true, some "manual"⟩
      = ⟨"a", "personas", "m1", "m2", true, false, none⟩ :=
  ⟨(no_auto_revert_to_primary true 2 1 ⟨fun _ => .ok "p", fun _ => .ok "f"⟩
      ⟨"a", "personas", "m1", "m2", true, true, some "manual"⟩).1 rfl,
   (no_auto_revert_to_primary true 2 1 ⟨fun _ => .ok "p", fun _ => .ok "f"⟩
      ⟨"a", "personas", "m1", "m2", true, true, some "manual"⟩).2.1 rfl⟩

/-- The state invariant of the Resilient Invoker: whenever `using_fallback`
is set, a `fallback_reason` is recorded and the fallback LLM exists. -/
def FallbackInv (l : FallbackLLM) : Prop :=
  l.using_fallback = true →
    l.fallback_reason.isSome = true ∧ l.has_fallback_llm = true

lemma agenerateLoop_preserves_inv (world : ModelWorld) (max_retries : Nat)
    (retry_delay : ℚ) (l : FallbackLLM) (attempt fuel cp cf : Nat)
    (sleeps : List ℚ) (h : FallbackInv l) :
    FallbackInv (agenerateLoop world max_retries retry_delay l attempt fuel cp cf
      sleeps).self := by
  induction fuel generalizing attempt cp cf sleeps with
  | zero => simpa [agenerateLoop] using h
  | succ n ih =>
      by_cases hu : l.using_fallback = true
      · cases hc : world.fallback_llm cf with
        | ok r => simpa [agenerateLoop, hu, hc] using h
        | error e =>
            by_cases hg : is_credit_error e = true ∨ max_retries ≤ attempt
            · simpa [agenerateLoop, hu, hc, hg] using h
            · simp [agenerateLoop, hu, hc, hg]
              exact ih _ _ _ _
      · have hu' : l.using_fallback = false := by simpa using hu
        cases hc : world.primary_llm cp with
        | ok r => simpa [agenerateLoop, hu', hc] using h
        | error e =>
            by_cases hg : is_credit_error e = true ∨ max_retries ≤ attempt
            · by_cases hh : l.has_fallback_llm = true
              · cases hfb : world.fallback_llm cf with
                | ok r => simp [agenerateLoop, hc, hg, hu', hh, hfb, FallbackInv]
                | error fe => simp [agenerateLoop, hc, hg, hu', hh, hfb, FallbackInv]
              · simpa [agenerateLoop, hc, hg, hu', hh] using h
            · simp [agenerateLoop, hu', hc, hg]
              exact ih _ _ _ _

/-- C5: every operation of the Resilient Invoker — construction, invocation,
reset, force — preserves the invariant that `using_fallback = true` implies a
recorded `fallback_reason` and an existing fallback model. -/
theorem fallback_invariant_preserved (agent_name agent_type pm fm : String)
    (fallback_enabled : Bool) (max_retries : Nat) (retry_delay : ℚ)
    (world : ModelWorld) (l : FallbackLLM) (reason : String) :
    FallbackInv (FallbackLLM.init agent_name agent_type pm fm fallback_enabled) ∧
    (FallbackInv l →
      FallbackInv (agenerate fallback_enabled max_retries retry_delay world l).self) ∧
    (FallbackInv l → FallbackInv l.reset_fallback) ∧
    (FallbackInv l → FallbackInv (l.force_fallback reason)) := by
  refine ⟨?_, ?_, ?_, ?_⟩
  · intro h
    simp [FallbackLLM.init] at h
  · intro h
    unfold agenerate
    by_cases hf : fallback_enabled = false
    · cases hp : world.primary_llm 0 <;> simpa [hf, hp] using h
    · simp only [hf, if_false]
      exact agenerateLoop_preserves_inv _ _ _ _ _ _ _ _ _ h
  · intro h
    unfold FallbackLLM.reset_fallback
    by_cases hu : l.using_fallback = true
    · intro hcontra
      simp [hu] at hcontra
    · simpa [hu] using h
  · intro h
    unfold FallbackLLM.force_fallback
    by_cases hc : l.has_fallback_llm = true ∧ l.using_fallback = false
    · intro _
      simp [hc, hc.1]
    · simpa [hc] using h

/-- Witness for C5 at a concrete input: a freshly constructed instance
satisfies the invariant, and forcing fallback on it preserves it. -/
theorem fallback_invariant_preserved_witness :
    FallbackInv (FallbackLLM.init "a" "personas" "m1" "m2" true) ∧
    FallbackInv ((FallbackLLM.init "a" "personas" "m1" "m2" true).force_fallback
      "manual") :=
  ⟨(fallback_invariant_preserved "a" "personas" "m1" "m2" true 2 1
      ⟨fun _ => .ok "p", fun _ => .ok "f"⟩
      (FallbackLLM.init "a" "personas" "m1" "m2" true) "manual").1,
   (fallback_invariant_preserved "a" "personas" "m1" "m2" true 2 1
      ⟨fun _ => .ok "p", fun _ => .ok "f"⟩
      (FallbackLLM.init "a" "personas" "m1" "m2" true) "manual").2.2.2
     (fun hcontra => by simp [FallbackLLM.init] at hcontra)⟩

lemma agenerateLoop_step_to_fallback (world : ModelWorld) (max_retries : Nat)
    (retry_delay : ℚ) (l : FallbackLLM) (attempt fuel cp cf : Nat)
    (sleeps : List ℚ) (e : String)
    (hu : l.using_fallback = false) (hh : l.has_fallback_llm = true)
    (hcall : world.primary_llm cp = .error e)
    (hguard : is_credit_error e = true ∨ max_retries ≤ attempt) :
    agenerateLoop world max_retries retry_delay l attempt (fuel + 1) cp cf sleeps =
      { result := world.fallback_llm cf,
        self := { l with
                  using_fallback := true,
                  fallback_reason := some (if is_credit_error e = true
                    then "credit_exhausted" else "max_retries_exceeded") },
        sleeps := sleeps,
        primary_calls := cp + 1,
        fallback_calls := cf + 1 } := by
  cases hfb : world.fallback_llm cf with
  | ok r => simp [agenerateLoop, hu, hh, hcall, hguard, hfb]
  | error fe => simp [agenerateLoop, hu, hh, hcall, hguard, hfb]

lemma agenerateLoop_step_reraise (world : ModelWorld) (max_retries : Nat)
    (retry_delay : ℚ) (l : FallbackLLM) (attempt fuel cp cf : Nat)
    (sleeps : List ℚ) (e : String)
    (hno : ¬(l.using_fallback = false ∧ l.has_fallback_llm = true))
    (hcall : (if l.using_fallback = true then world.fallback_llm cf
        else world.primary_llm cp) = .error e)
    (hguard : is_credit_error e = true ∨ max_retries ≤ attempt) :
    agenerateLoop world max_retries retry_delay l attempt (fuel + 1) cp cf sleeps =
      { result := .error e,
        self := l,
        sleeps := sleeps,
        primary_calls := if l.using_fallback = true then cp else cp + 1,
        fallback_calls := if l.using_fallback = true then cf + 1 else cf } := by
  by_cases hu : l.using_fallback = true
  · have hc : world.fallback_llm cf = .error e := by simpa [hu] using hcall
    simp [agenerateLoop, hu, hc, hguard]
  · have hu' : l.using_fallback = false := by simpa using hu
    have hc : world.primary_llm cp = .error e := by simpa [hu'] using hcall
    have hh : l.has_fallback_llm = false := by
      rcases Bool.eq_false_or_eq_true l.has_fallback_llm with h | h
      · exact absurd ⟨hu', h⟩ hno
      · exact h
    simp [agenerateLoop, hu', hc, hguard, hh]

/-- C1: when an attempt fails with a credit-classified error or with the
attempt index equal to `max_retries`: if a secondary model exists and is not
already active, the invoker switches to `FALLBACK` with reason
`credit_exhausted` (credit error) or `max_retries_exceeded` (retry
exhaustion) and makes exactly one immediate secondary call whose reply or
error becomes the outcome (no retries of the secondary); if no secondary
exists or it is already active, the original error is re-raised. -/
theorem fallback_on_credit_or_exhaustion (world : ModelWorld) (max_retries : Nat)
    (retry_delay : ℚ) (l : FallbackLLM) (attempt fuel cp cf : Nat)
    (sleeps : List ℚ) (e : String)
    (hcall : (if l.using_fallback = true then world.fallback_llm cf
        else world.primary_llm cp) = .error e)
    (hguard : is_credit_error e = true ∨ attempt = max_retries) :
    (l.using_fallback = false → l.has_fallback_llm = true →
      (agenerateLoop world max_retries retry_delay l attempt (fuel + 1) cp cf
          sleeps).self.using_fallback = true ∧
      (agenerateLoop world max_retries retry_delay l attempt (fuel + 1) cp cf
          sleeps).self.fallback_reason = some (if is_credit_error e = true
            then "credit_exhausted" else "max_retries_exceeded") ∧
      (agenerateLoop world max_retries retry_delay l attempt (fuel + 1) cp cf
          sleeps).result = world.fallback_llm cf ∧
      (agenerateLoop world max_retries retry_delay l attempt (fuel + 1) cp cf
          sleeps).fallback_calls = cf + 1 ∧
      (agenerateLoop world max_retries retry_delay l attempt (fuel + 1) cp cf
          sleeps).sleeps = sleeps) ∧
    (l.using_fallback = false → l.has_fallback_llm = false →
      (agenerateLoop world max_retries retry_delay l attempt (fuel + 1) cp cf
          sleeps).result = .error e ∧
      (agenerateLoop world max_retries retry_delay l attempt (fuel + 1) cp cf
          sleeps).self = l ∧
      (agenerateLoop world max_retries retry_delay l attempt (fuel + 1) cp cf
          sleeps).sleeps = sleeps) ∧
    (l.using_fallback = true →
      (agenerateLoop world max_retries retry_delay l attempt (fuel + 1) cp cf
          sleeps).result = .error e ∧
      (agenerateLoop world max_retries retry_delay l attempt (fuel + 1) cp cf
          sleeps).self = l ∧
      (agenerateLoop world max_retries retry_delay l attempt (fuel + 1) cp cf
          sleeps).sleeps = sleeps) := by
  have hguard' : is_credit_error e = true ∨ max_retries ≤ attempt :=
    hguard.imp id (fun h => Nat.le_of_eq h.symm)
  refine ⟨?_, ?_, ?_⟩
  · intro hu hh
    have hc : world.primary_llm cp = .error e := by simpa [hu] using hcall
    rw [agenerateLoop_step_to_fallback world max_retries retry_delay l attempt
      fuel cp cf sleeps e hu hh hc hguard']
    exact ⟨rfl, rfl, rfl, rfl, rfl⟩
  · intro hu hh
    rw [agenerateLoop_step_reraise world max_retries retry_delay l attempt
      fuel cp cf sleeps e (by simp [hh]) hcall hguard']
    exact ⟨rfl, rfl, rfl⟩
  · intro hu
    rw [agenerateLoop_step_reraise world max_retries retry_delay l attempt
      fuel cp cf sleeps e (by simp [hu]) hcall hguard']
    exact ⟨rfl, rfl, rfl⟩

/-- Witness for C1 at a concrete input: a primary failure with message
"insufficient credits" (a credit error) at attempt 0 of 2 switches a fresh
instance to the fallback model, records `credit_exhausted`, and returns the
fallback's reply. -/
theorem fallback_on_credit_or_exhaustion_witness :
    (agenerateLoop ⟨fun _ => .error "insufficient credits", fun _ => .ok "fb reply"⟩
        2 1 ⟨"a", "personas", "m1", "m2", true, false, none⟩ 0 (2 + 1) 0 0
        []).self.using_fallback = true ∧
    (agenerateLoop ⟨fun _ => .error "insufficient credits", fun _ => .ok "fb reply"⟩
        2 1 ⟨"a", "personas", "m1", "m2", true, false, none⟩ 0 (2 + 1) 0 0
        []).result = .ok "fb reply" :=
  have h := fallback_on_credit_or_exhaustion
    ⟨fun _ => .error "insufficient credits", fun _ => .ok "fb reply"⟩
    2 1 ⟨"a", "personas", "m1", "m2", true, false, none⟩ 0 2 0 0 []
    "insufficient credits" (by simp) (Or.inl (by decide))
  ⟨(h.1 rfl rfl).1, (h.1 rfl rfl).2.2.1⟩

/-- C10: an error message containing "rate limit" also matches the credit
keyword "limit", and the credit test is consulted first; so on any failing
attempt of a primary-active instance with a secondary available — including
the very first — such an error triggers the immediate fallback transition
with reason `credit_exhausted`, performing no backoff sleep (the
exponential-backoff branch is reachable only for rate-limit messages free of
credit keywords). -/
theorem rate_limit_message_is_credit_first (world : ModelWorld)
    (max_retries : Nat) (retry_delay : ℚ) (l : FallbackLLM)
    (attempt fuel cp cf : Nat) (sleeps : List ℚ) (e : String)
    (hmsg : substrOf "rate limit" (lower e) = true)
    (hu : l.using_fallback = false) (hh : l.has_fallback_llm = true)
    (hcall : world.primary_llm cp = .error e) :
    is_credit_error e = true ∧ is_rate_limit e = true ∧
    classify_error e = .credit ∧
    (agenerateLoop world max_retries retry_delay l attempt (fuel + 1) cp cf
        sleeps).self.using_fallback = true ∧
    (agenerateLoop world max_retries retry_delay l attempt (fuel + 1) cp cf
        sleeps).self.fallback_reason = some "credit_exhausted" ∧
    (agenerateLoop world max_retries retry_delay l attempt (fuel + 1) cp cf
        sleeps).result = world.fallback_llm cf ∧
    (agenerateLoop world max_retries retry_delay l attempt (fuel + 1) cp cf
        sleeps).sleeps = sleeps := by
  have h1 : ("limit" : String).data <:+: ("rate limit" : String).data := by decide
  have h2 : ("rate limit" : String).data <:+: (lower e).data :=
    of_decide_eq_true hmsg
  have hlim : substrOf "limit" (lower e) = true :=
    decide_eq_true ( List.IsInfix.trans h1 h2)
  have hcredit : is_credit_error e = true := by
    unfold is_credit_error
    exact List.any_eq_true.mpr ⟨"limit", by decide, hlim⟩
  have hrate : is_rate_limit e = true := by
    unfold is_rate_limit
    exact List.any_eq_true.mpr ⟨"rate limit", by decide, hmsg⟩
  have hclass : classify_error e = .credit := by
    unfold classify_error
    simp [hcredit]
  have hstep := agenerateLoop_step_to_fallback world max_retries retry_delay l
    attempt fuel cp cf sleeps e hu hh hcall (Or.inl hcredit)
  rw [hstep]
  refine ⟨hcredit, hrate, hclass, rfl, ?_, rfl, rfl⟩
  simp [hcredit]

/-- Witness for C10 at a concrete input: the error "Rate limit hit" is
classified as a credit error and flips a fresh instance straight to
`FALLBACK` with reason `credit_exhausted` and no backoff sleep. -/
theorem rate_limit_message_is_credit_first_witness :
    is_credit_error "Rate limit hit" = true ∧
    (agenerateLoop ⟨fun _ => .error "Rate limit hit", fun _ => .ok "fb"⟩ 2 1
        ⟨"a", "personas", "m1", "m2", true, false, none⟩ 0 (2 + 1) 0 0
        []).self.fallback_reason = some "credit_exhausted" ∧
    (agenerateLoop ⟨fun _ => .error "Rate limit hit", fun _ => .ok "fb"⟩ 2 1
        ⟨"a", "personas", "m1", "m2", true, false, none⟩ 0 (2 + 1) 0 0
        []).sleeps = [] :=
  have h := rate_limit_message_is_credit_first
    ⟨fun _ => .error "Rate limit hit", fun _ => .ok "fb"⟩ 2 1
    ⟨"a", "personas", "m1", "m2", true, false, none⟩ 0 2 0 0 []
    "Rate limit hit" (by decide) rfl rfl rfl
  ⟨h.1, h.2.2.2.2.1, h.2.2.2.2.2.2⟩

lemma classify_error_rateLimit_iff (e : String) :
    classify_error e = .rateLimit ↔
      is_credit_error e = false ∧ is_rate_limit e = true := by
  unfold classify_error
  rcases Bool.eq_false_or_eq_true (is_credit_error e) with h | h <;>
    rcases Bool.eq_false_or_eq_true (is_rate_limit e) with h2 | h2 <;>
      simp [h, h2]

lemma classify_error_other_iff (e : String) :
    classify_error e = .other ↔
      is_credit_error e = false ∧ is_rate_limit e = false := by
  unfold classify_error
  rcases Bool.eq_false_or_eq_true (is_credit_error e) with h | h <;>
    rcases Bool.eq_false_or_eq_true (is_rate_limit e) with h2 | h2 <;>
      simp [h, h2]

/-- C6: on a failed attempt with attempts remaining, an error classified as
rate-limit makes the loop sleep `retry_delay * 2 ^ attempt` before the next
attempt, while an error classified as other sleeps a flat `retry_delay`;
at attempts 0, 1, 2 the exponential delay is `retry_delay`,
`2 * retry_delay`, `4 * retry_delay`. -/
theorem backoff_delays (world : ModelWorld) (max_retries : Nat)
    (retry_delay : ℚ) (l : FallbackLLM) (attempt fuel cp cf : Nat)
    (sleeps : List ℚ) (e : String)
    (hcall : (if l.using_fallback = true then world.fallback_llm cf
        else world.primary_llm cp) = .error e)
    (hlt : attempt < max_retries) :
    (classify_error e = .rateLimit →
      agenerateLoop world max_retries retry_delay l attempt (fuel + 1) cp cf sleeps
        = agenerateLoop world max_retries retry_delay l (attempt + 1) fuel
            (if l.using_fallback = true then cp else cp + 1)
            (if l.using_fallback = true then cf + 1 else cf)
            (sleeps ++ [retry_delay * 2 ^ attempt])) ∧
    (classify_error e = .other →
      agenerateLoop world max_retries retry_delay l attempt (fuel + 1) cp cf sleeps
        = agenerateLoop world max_retries retry_delay l (attempt + 1) fuel
            (if l.using_fallback = true then cp else cp + 1)
            (if l.using_fallback = true then cf + 1 else cf)
            (sleeps ++ [retry_delay])) ∧
    (retry_delay * 2 ^ 0 = retry_delay ∧ retry_delay * 2 ^ 1 = 2 * retry_delay ∧
      retry_delay * 2 ^ 2 = 4 * retry_delay) := by
  have hng : is_credit_error e = false →
      ¬(is_credit_error e = true ∨ max_retries ≤ attempt) := by
    intro hc h
    rcases h with h | h
    · rw [hc] at h
      exact Bool.false_ne_true h
    · exact absurd h (Nat.not_le.mpr hlt)
  refine ⟨?_, ?_, by ring, by ring, by ring⟩
  · intro hcl
    obtain ⟨hc, hr⟩ := (classify_error_rateLimit_iff e).mp hcl
    by_cases hu : l.using_fallback = true
    · have hcf : world.fallback_llm cf = .error e := by simpa [hu] using hcall
      simp [agenerateLoop, hu, hcf, hng hc, hr, hlt]
    · have hu' : l.using_fallback = false := by simpa using hu
      have hcp : world.primary_llm cp = .error e := by simpa [hu'] using hcall
      simp [agenerateLoop, hu', hcp, hng hc, hr, hlt]
  · intro hcl
    obtain ⟨hc, hr⟩ := (classify_error_other_iff e).mp hcl
    by_cases hu : l.using_fallback = true
    · have hcf : world.fallback_llm cf = .error e := by simpa [hu] using hcall
      simp [agenerateLoop, hu, hcf, hng hc, hr, hlt]
    · have hu' : l.using_fallback = false := by simpa using hu
      have hcp : world.primary_llm cp = .error e := by simpa [hu'] using hcall
      simp [agenerateLoop, hu', hcp, hng hc, hr, hlt]

/-- Witness for C6 at a concrete input: a "429" failure (rate-limit, not
credit) at attempt 0 of max 2 recurses after recording the sleep
`1 * 2 ^ 0`. -/
theorem backoff_delays_witness :
    agenerateLoop ⟨fun _ => .error "429", fun _ => .ok "fb"⟩ 2 1
        ⟨"a", "personas", "m1", "m2", true, false, none⟩ 0 (2 + 1) 0 0 []
      = agenerateLoop ⟨fun _ => .error "429", fun _ => .ok "fb"⟩ 2 1
          ⟨"a", "personas", "m1", "m2", true, false, none⟩ 1 2 1 0
          ([] ++ [1 * 2 ^ 0]) :=
  (backoff_delays ⟨fun _ => .error "429", fun _ => .ok "fb"⟩ 2 1
      ⟨"a", "personas", "m1", "m2", true, false, none⟩ 0 2 0 0 [] "429"
      (by simp) (by decide)).1 (by decide)

/-- The fixed apologetic reply of `OrchestratorAgent._handle_directly`
(`backend/agents/orchestrator.py`, line 111). -/
def apology_message : String :=
  "I apologize, but I\x27m having trouble processing your request right now. Please try again."

/-- `OrchestratorAgent._handle_directly` (`backend/agents/orchestrator.py`,
lines 89-111), with the outcome of the try block around the model invocation
(the generated text, or the raised error) passed as an oracle: a reply is
stripped and returned; any error yields the fixed apologetic message.
History mutation does not affect the returned reply and is omitted. -/
def handle_directly (llm_result : Except String String) : String :=
  match llm_result with
  | .ok response => response.trim
  | .error _ => apology_message

/-- Python's `config.routing_confidence_threshold or 0.4`
(`backend/agents/orchestrator.py`, line 63): `None` and `0.0` are falsy. -/
def routing_threshold_of (t : Option ℚ) : ℚ :=
  match t with
  | some v => if v = 0 then 2/5 else v
  | none => 2/5

/-- `OrchestratorAgent.process` (`backend/agents/orchestrator.py`,
lines 53-87): query the registry for the best responder; when one exists,
is not the orchestrator itself, and its confidence exceeds the routing
threshold, delegate to it (prefixing the reply with the routing marker) and
degrade to direct handling if delegation raises; otherwise handle directly.
`delegate_result` gives each candidate responder's `process` outcome and
`llm_result` the orchestrator's own model call outcome. -/
def orchestrator_process (reg : AgentRegistry) (message : String)
    (routing_confidence_threshold : Option ℚ)
    (delegate_result : BaseAgent → Except String String)
    (llm_result : Except String String) : String :=
  match (find_best_agent reg message).1 with
  | some best_agent =>
      if best_agent.config.name ≠ "orchestrator" ∧
          (find_best_agent reg message).2
            > routing_threshold_of routing_confidence_threshold then
        match delegate_result best_agent with
        | .ok response =>
            "[Routed to " ++ best_agent.config.name ++ "]\n\n" ++ response
        | .error _ => handle_directly llm_result
      else
        handle_directly llm_result
  | none => handle_directly llm_result

/-- C8: the Router's `process` never propagates an exception: a delegation
error degrades to direct handling, a direct-handling model error yields the
fixed apologetic message, and the returned value is always one of the three
reply texts (routed reply, direct reply, apology). -/
theorem orchestrator_never_propagates (reg : AgentRegistry) (message : String)
    (threshold : Option ℚ) (delegate_result : BaseAgent → Except String String)
    (llm_result : Except String String) :
    (∀ err, llm_result = .error err →
      handle_directly llm_result = apology_message) ∧
    (∀ best_agent err, (find_best_agent reg message).1 = some best_agent →
      best_agent.config.name ≠ "orchestrator" →
      (find_best_agent reg message).2 > routing_threshold_of threshold →
      delegate_result best_agent = .error err →
      orchestrator_process reg message threshold delegate_result llm_result
        = handle_directly llm_result) ∧
    ((∃ best_agent response,
        orchestrator_process reg message threshold delegate_result llm_result
          = "[Routed to " ++ best_agent.config.name ++ "]\n\n" ++ response ∧
        delegate_result best_agent = .ok response) ∨
      (∃ response, llm_result = .ok response ∧
        orchestrator_process reg message threshold delegate_result llm_result
          = response.trim) ∨
      orchestrator_process reg message threshold delegate_result llm_result
        = apology_message) := by
  have hhd : (∃ response, llm_result = .ok response ∧
      handle_directly llm_result = response.trim) ∨
      handle_directly llm_result = apology_message := by
    cases hl : llm_result with
    | ok r => exact Or.inl ⟨r, rfl, by simp [handle_directly]⟩
    | error err => exact Or.inr (by simp [handle_directly])
  refine ⟨?_, ?_, ?_⟩
  · intro err h
    simp [handle_directly, h]
  · intro best_agent err hbest hname hconf hdel
    simp [orchestrator_process, hbest, hname, hconf, hdel]
  · unfold orchestrator_process
    cases hb : (find_best_agent reg message).1 with
    | none =>
        rcases hhd with ⟨r, hr, he⟩ | he
        · exact Or.inr (Or.inl ⟨r, hr, he⟩)
        · exact Or.inr (Or.inr he)
    | some a =>
        dsimp only
        by_cases hcond : a.config.name ≠ "orchestrator" ∧
            (find_best_agent reg message).2 > routing_threshold_of threshold
        · rw [if_pos hcond]
          cases hd : delegate_result a with
          | ok response => exact Or.inl ⟨a, response, rfl, hd⟩
          | error err =>
              rcases hhd with ⟨r, hr, he⟩ | he
              · exact Or.inr (Or.inl ⟨r, hr, he⟩)
              · exact Or.inr (Or.inr he)
        · rw [if_neg hcond]
          rcases hhd with ⟨r, hr, he⟩ | he
          · exact Or.inr (Or.inl ⟨r, hr, he⟩)
          · exact Or.inr (Or.inr he)

/-- The status snapshot returned by `FallbackLLM.get_status`
(`backend/agents/fallback_llm.py`, lines 116-126). -/
structure AgentStatus where
  agent_name : String
  agent_type : String
  using_fallback : Bool
  fallback_reason : Option String
  primary_model : String
  fallback_model : Option String
  fallback_enabled : Bool
deriving DecidableEq

/-- `FallbackLLM.get_status` (`backend/agents/fallback_llm.py`,
lines 116-126); `fallback_enabled` is the global configuration flag read at
query time, and `fallback_model` is reported only when the fallback LLM
instance exists. -/
def FallbackLLM.get_status (l : FallbackLLM) (fallback_enabled : Bool) :
    AgentStatus :=
  { agent_name := l.agent_name
    agent_type := l.agent_type
    using_fallback := l.using_fallback
    fallback_reason := l.fallback_reason
    primary_model := l.primary_model_name
    fallback_model := if l.has_fallback_llm = true
      then some l.fallback_model_name else none
    fallback_enabled := fallback_enabled }

/-- `FallbackManager` (`backend/agents/fallback_llm.py`, lines 155-163): the
registered invokers keyed by responder name, in insertion order. -/
structure FallbackManager where
  agents : List (String × FallbackLLM)

/-- The aggregate returned by `FallbackManager.get_system_status`
(`backend/agents/fallback_llm.py`, lines 165-180). -/
structure SystemStatus where
  total_agents : Nat
  agents_using_fallback : Nat
  agents_status : List (String × AgentStatus)

/-- One iteration of the loop in `FallbackManager.get_system_status`
(`backend/agents/fallback_llm.py`, lines 173-178): record the responder's
snapshot and count it when it is using its fallback model. -/
def status_step (fallback_enabled : Bool)
    (status : Nat × List (String × AgentStatus))
    (p : String × FallbackLLM) : Nat × List (String × AgentStatus) :=
  let agent_status := p.2.get_status fallback_enabled
  (status.1 + (if agent_status.using_fallback = true then 1 else 0),
    status.2 ++ [(p.1, agent_status)])

/-- `FallbackManager.get_system_status` (`backend/agents/fallback_llm.py`,
lines 165-180). -/
def FallbackManager.get_system_status (m : FallbackManager)
    (fallback_enabled : Bool) : SystemStatus :=
  let r := m.agents.foldl (status_step fallback_enabled) (0, [])
  { total_agents := m.agents.length
    agents_using_fallback := r.1
    agents_status := r.2 }

lemma status_fold_spec (fallback_enabled : Bool)
    (agents : List (String × FallbackLLM)) (n : Nat)
    (acc : List (String × AgentStatus)) :
    (agents.foldl (status_step fallback_enabled) (n, acc)).1
      = n + (agents.filter (fun p => p.2.using_fallback)).length ∧
    (agents.foldl (status_step fallback_enabled) (n, acc)).2
      = acc ++ agents.map (fun p => (p.1, p.2.get_status fallback_enabled)) := by
  induction agents generalizing n acc with
  | nil => simp
  | cons a as ih =>
      rw [List.foldl_cons]
      have hstep : status_step fallback_enabled (n, acc) a
          = (n + (if a.2.using_fallback = true then 1 else 0),
             acc ++ [(a.1, a.2.get_status fallback_enabled)]) := rfl
      rw [hstep]
      obtain ⟨ih1, ih2⟩ := ih (n + (if a.2.using_fallback = true then 1 else 0))
        (acc ++ [(a.1, a.2.get_status fallback_enabled)])
      refine ⟨?_, ?_⟩
      · rw [ih1, List.filter_cons]
        cases hb : a.2.using_fallback
        · simp [hb]
        · simp [hb]
          omega
      · rw [ih2, List.map_cons, List.append_assoc]
        simp

/-- C9: `get_system_status` reports `total_agents` equal to the number of
registered invokers, `agents_using_fallback` equal to the number of
registered invokers whose `using_fallback` flag is set, and a per-responder
snapshot entry for every registered invoker. -/
theorem system_status_counts (m : FallbackManager) (fallback_enabled : Bool) :
    (m.get_system_status fallback_enabled).total_agents = m.agents.length ∧
    (m.get_system_status fallback_enabled).agents_using_fallback
      = (m.agents.filter (fun p => p.2.using_fallback)).length ∧
    ∀ p ∈ m.agents, (p.1, p.2.get_status fallback_enabled)
        ∈ (m.get_system_status fallback_enabled).agents_status := by
  obtain ⟨h1, h2⟩ := status_fold_spec fallback_enabled m.agents 0 []
  refine ⟨rfl, ?_, ?_⟩
  · show (m.agents.foldl (status_step fallback_enabled) (0, [])).1 = _
    rw [h1]
    omega
  · intro p hp
    show _ ∈ (m.agents.foldl (status_step fallback_enabled) (0, [])).2
    rw [h2]
    simp only [List.nil_append, List.mem_map]
    exact ⟨p, hp, rfl⟩

/-- Witness for C9 at a concrete input: two invokers, the second forced into
fallback, report `total_agents = 2`, `agents_using_fallback = 1`, and both
responders' snapshots are present. -/
theorem system_status_counts_witness :
    (FallbackManager.get_system_status
        ⟨[("main", ⟨"main", "main", "m1", "m2", true, false, none⟩),
          ("coding", FallbackLLM.force_fallback
            ⟨"coding", "personas", "m3", "m4", true, false, none⟩ "manual")]⟩
        true).total_agents = 2 ∧
    (FallbackManager.get_system_status
        ⟨[("main", ⟨"main", "main", "m1", "m2", true, false, none⟩),
          ("coding", FallbackLLM.force_fallback
            ⟨"coding", "personas", "m3", "m4", true, false, none⟩ "manual")]⟩
        true).agents_using_fallback = 1 ∧
    ("main", FallbackLLM.get_status ⟨"main", "main", "m1", "m2", true, false, none⟩
        true)
      ∈ (FallbackManager.get_system_status
        ⟨[("main", ⟨"main", "main", "m1", "m2", true, false, none⟩),
          ("coding", FallbackLLM.force_fallback
            ⟨"coding", "personas", "m3", "m4", true, false, none⟩ "manual")]⟩
        true).agents_status :=
  have h := system_status_counts
    ⟨[("main", ⟨"main", "main", "m1", "m2", true, false, none⟩),
      ("coding", FallbackLLM.force_fallback
        ⟨"coding", "personas", "m3", "m4", true, false, none⟩ "manual")]⟩ true
  ⟨h.1, (h.2.1).trans (by decide),
    h.2.2 ("main", ⟨"main", "main", "m1", "m2", true, false, none⟩) (by simp)⟩

/-- Witness for C8 at a concrete input: the message "fix this bug in my
function" delegates to the coding responder (score 0.6 > threshold 0.4);
the delegate raises, direct handling's own model call also raises, and the
result is the fixed apologetic message. -/
theorem orchestrator_never_propagates_witness :
    orchestrator_process
      ⟨[⟨⟨"coding", "c", [⟨"code", "d", ["bug", "function", "debug"], 7/10⟩]⟩⟩],
        none⟩
      "fix this bug in my function" none
      (fun _ => .error "delegate boom") (.error "model busy")
      = apology_message := by
  have hscore : can_handle
      ⟨"coding", "c", [⟨"code", "d", ["bug", "function", "debug"], 7/10⟩]⟩
      "fix this bug in my function" = 3/5 := by
    have h1 : (["bug", "function", "debug"] : List String).countP
        (fun keyword => substrOf (lower keyword)
          (lower "fix this bug in my function")) = 2 := by decide
    norm_num [can_handle, capability_step, h1, min_def]
  have hbest : find_best_agent
      ⟨[⟨⟨"coding", "c", [⟨"code", "d", ["bug", "function", "debug"], 7/10⟩]⟩⟩],
        none⟩
      "fix this bug in my function"
      = (some ⟨⟨"coding", "c", [⟨"code", "d", ["bug", "function", "debug"],
          7/10⟩]⟩⟩, 3/5) := by
    norm_num [find_best_agent, find_best_step, hscore]
  have h := orchestrator_never_propagates
    ⟨[⟨⟨"coding", "c", [⟨"code", "d", ["bug", "function", "debug"], 7/10⟩]⟩⟩],
      none⟩
    "fix this bug in my function" none
    (fun _ => .error "delegate boom") (.error "model busy")
  refine (h.2.1 ⟨⟨"coding", "c", [⟨"code", "d", ["bug", "function", "debug"],
      7/10⟩]⟩⟩ "delegate boom" (by rw [hbest]) (by decide) ?_ rfl).trans
    (h.1 "model busy" rfl)
  rw [hbest]
  norm_num [routing_threshold_of]
